import Mathlib

/-!
Verification of the kalker interpreter core (`src/interpreter.rs`).

The interpreter is embedded shallowly: the AST (`Expr`, `Stmt`), the
evaluation context (a symbol table plus a default angle unit) and every
`eval_*` function are translated from the source.  The external
collaborators that the source pulls from other modules (the symbol table,
the prelude catalog of constants and builtin functions, and the
token-kind-to-unit resolution) are modelled from the specification, as is
the double-precision numeric domain, which is abstracted into a structure
of operations so that theorems hold for every interpretation of the
arithmetic.  Rust's unbounded recursion is embedded with an explicit fuel
parameter; `Res.out` marks fuel exhaustion (a stack overflow in the
original) and is distinct from the `Result::Err` path.
-/

namespace Kalker

/-- The `Unit` enum from `ast.rs`: the two angle units. -/
inductive Unit where
  | degrees : Unit
  | radians : Unit
deriving DecidableEq

/-- The token kinds that `eval_binary_expr` and `eval_unit_expr` inspect:
the five arithmetic operator tokens, the two unit suffix tokens, and a
stand-in for every other kind (matched only by wildcard arms). -/
inductive TokenKind where
  | plus : TokenKind
  | minus : TokenKind
  | star : TokenKind
  | slash : TokenKind
  | power : TokenKind
  | deg : TokenKind
  | rad : TokenKind
  | other : TokenKind
deriving DecidableEq

/-- The `Expr` AST from `ast.rs`, exactly the seven variants that
`eval_expr` dispatches on. -/
inductive Expr where
  | binary : Expr → TokenKind → Expr → Expr
  | unary : TokenKind → Expr → Expr
  | unit : Expr → TokenKind → Expr
  | var : String → Expr
  | literal : String → Expr
  | group : Expr → Expr
  | fnCall : String → List Expr → Expr

/-- The `Stmt` AST from `ast.rs`: variable declaration, function
declaration, bare expression. -/
inductive Stmt where
  | varDecl : String → Expr → Stmt
  | fnDecl : String → List String → Expr → Stmt
  | expr : Expr → Stmt

/-- Modelled from the spec: the environment store collaborator
(`symbol_table.rs`, not under `src/`), "a mapping from declaration names
to their declarations, supporting insert and lookup by string key" with
last-write-wins overwrite.  Represented as an association list where
`insert` prepends and `get` returns the most recent entry. -/
abbrev SymbolTable : Type := List (String × Stmt)

/-- Insert a declaration under a key, overwriting any prior binding. -/
def SymbolTable.insert (t : SymbolTable) (key : String) (s : Stmt) : SymbolTable :=
  (key, s) :: t

/-- Look a key up, returning the most recently inserted entry. -/
def SymbolTable.get : SymbolTable → String → Option Stmt
  | [], _ => none
  | (k, s) :: rest, key => if k = key then some s else SymbolTable.get rest key

/-- Modelled from the spec: the double-precision numeric domain.  The
interpreter uses `f64` literals, arithmetic, `powf`, `to_radians`,
`to_degrees` and `str::parse`; these are abstracted into a structure of
operations so theorems about evaluation hold for every carrier. -/
structure NumOps (Num : Type) where
  zero : Num
  add : Num → Num → Num
  sub : Num → Num → Num
  mul : Num → Num → Num
  div : Num → Num → Num
  pow : Num → Num → Num
  parseLit : String → Option Num
  toRadians : Num → Num
  toDegrees : Num → Num

/-- Modelled from the spec: the builtin catalog collaborator
(`prelude.rs`, not under `src/`): "a fixed mapping from names to numeric
constants, plus dispatch tables for unary and binary built-in functions
that additionally receive the active angle unit"; all lookups return
"not found" rather than erroring. -/
structure Prel (Num : Type) where
  constants : String → Option String
  callUnary : String → Num → Unit → Option Num
  callBinary : String → Num → Num → Unit → Option Num

/-- Modelled from the spec: `TokenKind::to_unit` (unit-kind resolution
from `lexer.rs`/`ast.rs`, not under `src/`): "a token/operator-kind-to-
Unit mapping that may itself fail (e.g., an unrecognized suffix) and must
propagate as an evaluation error". -/
def TokenKind.to_unit : TokenKind → Except String Unit
  | .deg => .ok Unit.degrees
  | .rad => .ok Unit.radians
  | _ => .error "Invalid unit"

/-- `compare_enums` from `ast.rs` (not under `src/`): compares the
variants of two `Unit` values; on a payload-free enum this is equality. -/
def compare_enums (x y : Unit) : Bool := decide (x = y)

/-- Result of one evaluation step: `ok value table` and `err message
table` mirror `Result<f64, String>` together with the state of the
mutably borrowed symbol table; `out` is fuel exhaustion (unbounded
recursion / stack overflow in the original). -/
inductive Res (Num : Type) where
  | ok : Num → SymbolTable → Res Num
  | err : String → SymbolTable → Res Num
  | out : Res Num

/-- The apostrophe character used inside the source's error strings. -/
def quo : String := String.singleton (Char.ofNat 39)

/-- `format!("Undefined variable: '{}'.", identifier)` -/
def undefined_var_msg (identifier : String) : String :=
  "Undefined variable: " ++ quo ++ identifier ++ quo ++ "."

/-- `format!("Undefined function: '{}'.", identifier)` -/
def undefined_fn_msg (identifier : String) : String :=
  "Undefined function: " ++ quo ++ identifier ++ quo ++ "."

/-- `format!("Invalid number literal: '{}'.", value)` -/
def invalid_literal_msg (value : String) : String :=
  "Invalid number literal: " ++ quo ++ value ++ quo ++ "."

/-- `format!("Expected {} arguments in function '{}' but found {}.", ...)` -/
def arg_count_msg (expected : Nat) (identifier : String) (actual : Nat) : String :=
  "Expected " ++ toString expected ++ " arguments in function " ++ quo ++ identifier
    ++ quo ++ " but found " ++ toString actual ++ "."

variable {Num : Type}

/-- `eval_binary_expr`: evaluate the left operand, then the right operand
in the table state the left produced, then apply the operator; any
`TokenKind` outside the five arithmetic operators yields `0`. -/
def eval_binary_expr (ops : NumOps Num) (evalE : SymbolTable → Expr → Res Num)
    (st : SymbolTable) (left : Expr) (op : TokenKind) (right : Expr) : Res Num :=
  match evalE st left with
  | .out => .out
  | .err m st1 => .err m st1
  | .ok lv st1 =>
    match evalE st1 right with
    | .out => .out
    | .err m st2 => .err m st2
    | .ok rv st2 =>
      .ok (match op with
        | .plus => ops.add lv rv
        | .minus => ops.sub lv rv
        | .star => ops.mul lv rv
        | .slash => ops.div lv rv
        | .power => ops.pow lv rv
        | _ => ops.zero) st2

/-- `eval_unit_expr`: evaluate the inner expression (keeping its `Result`
unforced), resolve the token kind to a unit with `?`, return the inner
result unchanged when the unit matches the context's angle unit, and
otherwise convert degrees→radians or radians→degrees. -/
def eval_unit_expr (ops : NumOps Num) (angle_unit : Unit)
    (evalE : SymbolTable → Expr → Res Num)
    (st : SymbolTable) (inner : Expr) (kind : TokenKind) : Res Num :=
  match evalE st inner with
  | .out => .out
  | x =>
    match kind.to_unit with
    | .error m =>
      match x with
      | .ok _ st1 => .err m st1
      | .err _ st1 => .err m st1
      | .out => .out
    | .ok u =>
      if compare_enums angle_unit u then x
      else
        match u, x with
        | .degrees, .ok v st1 => .ok (ops.toRadians v) st1
        | .radians, .ok v st1 => .ok (ops.toDegrees v) st1
        | _, .err m st1 => .err m st1
        | _, .out => .out

/-- `eval_var_expr`: prelude constant first (expanded as a fresh
literal), then a `VarDecl` in the symbol table, otherwise the
undefined-variable error. -/
def eval_var_expr (P : Prel Num) (evalE : SymbolTable → Expr → Res Num)
    (st : SymbolTable) (identifier : String) : Res Num :=
  match P.constants identifier with
  | some value => evalE st (Expr.literal value)
  | none =>
    match st.get identifier with
    | some (Stmt.varDecl _ e) => evalE st e
    | _ => .err (undefined_var_msg identifier) st

/-- `eval_literal_expr`: parse the stored text, or fail with the
invalid-literal error. -/
def eval_literal_expr (ops : NumOps Num) (st : SymbolTable) (value : String) : Res Num :=
  match ops.parseLit value with
  | some v => .ok v st
  | none => .err (invalid_literal_msg value) st

/-- `eval_stmt` relative to an expression evaluator: a `VarDecl` inserts
the statement itself under the identifier and yields `0`; a `FnDecl` is a
no-op yielding `0`; an expression statement evaluates its expression. -/
def eval_stmt_with (z : Num) (evalE : SymbolTable → Expr → Res Num)
    (st : SymbolTable) : Stmt → Res Num
  | Stmt.varDecl identifier e =>
    .ok z (st.insert identifier (Stmt.varDecl identifier e))
  | Stmt.fnDecl _ _ _ => .ok z st
  | Stmt.expr e => evalE st e

/-- The argument-binding loop of `eval_fn_call_expr`: for each parameter
name, run `eval_stmt` on a fresh `VarDecl` of the corresponding
(unevaluated) argument expression, propagating its result with `?`. -/
def bind_args (z : Num) (evalE : SymbolTable → Expr → Res Num) :
    SymbolTable → List String → List Expr → Res Num
  | st, [], _ => .ok z st
  | st, _ :: _, [] => .ok z st
  | st, p :: ps, a :: rest =>
    match eval_stmt_with z evalE st (Stmt.varDecl p a) with
    | .ok _ st1 => bind_args z evalE st1 ps rest
    | r => r

/-- The prelude phase of `eval_fn_call_expr`: with exactly one argument,
evaluate it (propagating failure with `?`) and try the unary builtin
table; with exactly two, evaluate both left to right and try the binary
builtin table; any other arity skips the phase with `None`. -/
def call_prelude (P : Prel Num) (angle_unit : Unit)
    (evalE : SymbolTable → Expr → Res Num)
    (st : SymbolTable) (identifier : String) : List Expr → Res (Option Num)
  | [a] =>
    match evalE st a with
    | .ok x st1 => .ok (P.callUnary identifier x angle_unit) st1
    | .err m st1 => .err m st1
    | .out => .out
  | [a, b] =>
    match evalE st a with
    | .ok x st1 =>
      match evalE st1 b with
      | .ok y st2 => .ok (P.callBinary identifier x y angle_unit) st2
      | .err m st2 => .err m st2
      | .out => .out
    | .err m st1 => .err m st1
    | .out => .out
  | _ => .ok none st

/-- `eval_fn_call_expr`: run the prelude phase; a builtin hit returns
immediately; otherwise look `identifier ++ "()"` up in the symbol table,
check the arity of a found `FnDecl`, bind the arguments as `VarDecl`s in
the shared table and evaluate the body; no entry (or a non-`FnDecl`
entry) is the undefined-function error. -/
def eval_fn_call_expr (ops : NumOps Num) (P : Prel Num) (angle_unit : Unit)
    (evalE : SymbolTable → Expr → Res Num)
    (st : SymbolTable) (identifier : String) (expressions : List Expr) : Res Num :=
  match call_prelude P angle_unit evalE st identifier expressions with
  | .out => .out
  | .err m st1 => .err m st1
  | .ok (some result) st1 => .ok result st1
  | .ok none st1 =>
    match st1.get (identifier ++ "()") with
    | some (Stmt.fnDecl _ arguments fn_body) =>
      if arguments.length ≠ expressions.length then
        .err (arg_count_msg arguments.length identifier expressions.length) st1
      else
        match bind_args ops.zero evalE st1 arguments expressions with
        | .ok _ st2 => evalE st2 fn_body
        | r => r
    | _ => .err (undefined_fn_msg identifier) st1

/-- `eval_expr`: the recursive dispatch over the seven expression kinds,
with an explicit fuel bound standing for the call stack. -/
def eval_expr (ops : NumOps Num) (P : Prel Num) (angle_unit : Unit) :
    Nat → SymbolTable → Expr → Res Num
  | 0 => fun _ _ => .out
  | fuel + 1 => fun st e =>
    match e with
    | Expr.binary l op r =>
      eval_binary_expr ops (eval_expr ops P angle_unit fuel) st l op r
    | Expr.unary _ operand => eval_expr ops P angle_unit fuel st operand
    | Expr.unit inner kind =>
      eval_unit_expr ops angle_unit (eval_expr ops P angle_unit fuel) st inner kind
    | Expr.var identifier =>
      eval_var_expr P (eval_expr ops P angle_unit fuel) st identifier
    | Expr.literal value => eval_literal_expr ops st value
    | Expr.group inner => eval_expr ops P angle_unit fuel st inner
    | Expr.fnCall identifier expressions =>
      eval_fn_call_expr ops P angle_unit (eval_expr ops P angle_unit fuel)
        st identifier expressions

/-- `eval_stmt` (top level): `eval_stmt_with` instantiated at the real
expression evaluator. -/
def eval_stmt (ops : NumOps Num) (P : Prel Num) (angle_unit : Unit)
    (fuel : Nat) (st : SymbolTable) (stmt : Stmt) : Res Num :=
  eval_stmt_with ops.zero (eval_expr ops P angle_unit fuel) st stmt

/-- `Context::interpret`: evaluate each statement in order; only at the
last statement, and only when it is a bare expression statement, is the
statement's result propagated (with `?`) and surfaced as `Some`; every
other evaluation result — including an `Err` of a non-final statement —
is discarded and the loop continues, ending in `Ok(None)`. -/
def interpret (ops : NumOps Num) (P : Prel Num) (angle_unit : Unit)
    (fuel : Nat) : SymbolTable → List Stmt → Res (Option Num)
  | st, [] => .ok none st
  | st, [stmt] =>
    match eval_stmt ops P angle_unit fuel st stmt, stmt with
    | .out, _ => .out
    | .ok v st1, Stmt.expr _ => .ok (some v) st1
    | .err m st1, Stmt.expr _ => .err m st1
    | .ok _ st1, _ => .ok none st1
    | .err _ st1, _ => .ok none st1
  | st, stmt :: s1 :: rest =>
    match eval_stmt ops P angle_unit fuel st stmt with
    | .out => .out
    | .ok _ st1 => interpret ops P angle_unit fuel st1 (s1 :: rest)
    | .err _ st1 => interpret ops P angle_unit fuel st1 (s1 :: rest)

/-! ## Concrete instances used to exercise the definitions -/

/-- Decimal digit accumulation for the demo literal parser. -/
def parse_digits : List Char → Nat → Option Nat
  | [], acc => some acc
  | c :: cs, acc =>
    if c.isDigit then parse_digits cs (10 * acc + (c.toNat - 48)) else none

/-- A small concrete literal parser over `Nat` (digits only). -/
def parse_nat (s : String) : Option Nat :=
  match s.data with
  | [] => none
  | cs => parse_digits cs 0

/-- A concrete numeric carrier over `Nat`; the two angle conversions are
distinct injections so their effects are observable. -/
def natOps : NumOps Nat where
  zero := 0
  add := Nat.add
  sub := Nat.sub
  mul := Nat.mul
  div := Nat.div
  pow := fun a b => a ^ b
  parseLit := parse_nat
  toRadians := fun x => x + 1000
  toDegrees := fun x => x + 2000

/-- A concrete builtin catalog: one constant, one unary builtin, one
binary builtin. -/
def demoPrel : Prel Nat where
  constants := fun name => if name = "pi" then some "3" else none
  callUnary := fun name x _ => if name = "double" then some (2 * x) else none
  callBinary := fun name x y _ => if name = "plus2" then some (x + y) else none

/-! ## Unfolding lemmas for `eval_expr` and `interpret` -/

theorem eval_expr_zero (ops : NumOps Num) (P : Prel Num) (angle_unit : Unit)
    (st : SymbolTable) (e : Expr) :
    eval_expr ops P angle_unit 0 st e = .out := rfl

theorem eval_expr_binary (ops : NumOps Num) (P : Prel Num) (angle_unit : Unit)
    (fuel : Nat) (st : SymbolTable) (l : Expr) (op : TokenKind) (r : Expr) :
    eval_expr ops P angle_unit (fuel + 1) st (Expr.binary l op r) =
      eval_binary_expr ops (eval_expr ops P angle_unit fuel) st l op r := rfl

theorem eval_expr_unary (ops : NumOps Num) (P : Prel Num) (angle_unit : Unit)
    (fuel : Nat) (st : SymbolTable) (op : TokenKind) (operand : Expr) :
    eval_expr ops P angle_unit (fuel + 1) st (Expr.unary op operand) =
      eval_expr ops P angle_unit fuel st operand := rfl

theorem eval_expr_unit (ops : NumOps Num) (P : Prel Num) (angle_unit : Unit)
    (fuel : Nat) (st : SymbolTable) (inner : Expr) (kind : TokenKind) :
    eval_expr ops P angle_unit (fuel + 1) st (Expr.unit inner kind) =
      eval_unit_expr ops angle_unit (eval_expr ops P angle_unit fuel) st inner kind := rfl

theorem eval_expr_var (ops : NumOps Num) (P : Prel Num) (angle_unit : Unit)
    (fuel : Nat) (st : SymbolTable) (identifier : String) :
    eval_expr ops P angle_unit (fuel + 1) st (Expr.var identifier) =
      eval_var_expr P (eval_expr ops P angle_unit fuel) st identifier := rfl

theorem eval_expr_fnCall (ops : NumOps Num) (P : Prel Num) (angle_unit : Unit)
    (fuel : Nat) (st : SymbolTable) (identifier : String) (expressions : List Expr) :
    eval_expr ops P angle_unit (fuel + 1) st (Expr.fnCall identifier expressions) =
      eval_fn_call_expr ops P angle_unit (eval_expr ops P angle_unit fuel)
        st identifier expressions := rfl

theorem interpret_cons (ops : NumOps Num) (P : Prel Num) (angle_unit : Unit)
    (fuel : Nat) (st : SymbolTable) (stmt : Stmt) (rest : List Stmt)
    (h : rest ≠ []) :
    interpret ops P angle_unit fuel st (stmt :: rest) =
      match eval_stmt ops P angle_unit fuel st stmt with
      | .out => .out
      | .ok _ st1 => interpret ops P angle_unit fuel st1 rest
      | .err _ st1 => interpret ops P angle_unit fuel st1 rest := by
  cases rest with
  | nil => exact absurd rfl h
  | cons s1 l => rfl

/-! ## Claim C1 -/

/-- Claim C1 is false on the code: the first statement's evaluation fails
with an undefined-variable error, yet `interpret` does not return that
error — the later statement is still evaluated and its numeric result is
surfaced. -/
theorem first_error_not_surfaced :
    eval_stmt natOps demoPrel Unit.radians 5 [] (Stmt.expr (Expr.var "nope"))
      = Res.err (undefined_var_msg "nope") [] ∧
    interpret natOps demoPrel Unit.radians 5 []
      [Stmt.expr (Expr.var "nope"), Stmt.expr (Expr.literal "1")]
      = Res.ok (some 1) [] :=
  ⟨rfl, rfl⟩

/-- Claim C1 (amended): when a statement's evaluation fails, `interpret`
surfaces the error only if that statement is the last one and is a bare
expression statement; a failure of a non-final statement is discarded and
interpretation continues with the remaining statements (from the table
state the failing statement left behind), and a failing final declaration
yields `Ok(None)`. -/
theorem interpret_first_error (ops : NumOps Num) (P : Prel Num) (angle_unit : Unit)
    (fuel : Nat) (st : SymbolTable) (stmt : Stmt) (rest : List Stmt)
    (m : String) (st1 : SymbolTable)
    (h : eval_stmt ops P angle_unit fuel st stmt = .err m st1) :
    interpret ops P angle_unit fuel st (stmt :: rest) =
      match rest, stmt with
      | [], Stmt.expr _ => .err m st1
      | [], _ => .ok none st1
      | _ :: _, _ => interpret ops P angle_unit fuel st1 rest := by
  cases rest with
  | nil => cases stmt <;> simp [interpret, h]
  | cons s1 l =>
    rw [interpret_cons ops P angle_unit fuel st stmt (s1 :: l) (List.cons_ne_nil s1 l), h]

/-- Witness for `interpret_first_error` at a concrete failing first
statement. -/
theorem interpret_first_error_witness :
    interpret natOps demoPrel Unit.radians 5 []
      [Stmt.expr (Expr.var "gone"), Stmt.expr (Expr.literal "2")]
      = interpret natOps demoPrel Unit.radians 5 [] [Stmt.expr (Expr.literal "2")] :=
  interpret_first_error natOps demoPrel Unit.radians 5 []
    (Stmt.expr (Expr.var "gone")) [Stmt.expr (Expr.literal "2")]
    (undefined_var_msg "gone") [] rfl

/-! ## Claim C6 -/

/-- Claim C6: in a binary expression the left operand is evaluated first
and the right operand is evaluated in the table state the left produced;
when both succeed the result is the operator's arithmetic operation
applied to the two values — add, subtract, multiply, divide (division
never takes an error path) or power — and `0` for every other operator
kind. -/
theorem binary_eval_semantics (ops : NumOps Num) (P : Prel Num) (angle_unit : Unit)
    (fuel : Nat) (st : SymbolTable) (l : Expr) (op : TokenKind) (r : Expr)
    (lv : Num) (st1 : SymbolTable) (rv : Num) (st2 : SymbolTable)
    (hl : eval_expr ops P angle_unit fuel st l = .ok lv st1)
    (hr : eval_expr ops P angle_unit fuel st1 r = .ok rv st2) :
    eval_expr ops P angle_unit (fuel + 1) st (Expr.binary l op r) =
      .ok (match op with
        | .plus => ops.add lv rv
        | .minus => ops.sub lv rv
        | .star => ops.mul lv rv
        | .slash => ops.div lv rv
        | .power => ops.pow lv rv
        | _ => ops.zero) st2 := by
  rw [eval_expr_binary]
  unfold eval_binary_expr
  simp only [hl, hr]

/-- Witness for `binary_eval_semantics`: a division with a zero
denominator still takes the `ok` path. -/
theorem binary_eval_semantics_witness :
    eval_expr natOps demoPrel Unit.radians 2 []
      (Expr.binary (Expr.literal "7") TokenKind.slash (Expr.literal "0"))
      = Res.ok (natOps.div 7 0) [] :=
  binary_eval_semantics natOps demoPrel Unit.radians 1 []
    (Expr.literal "7") TokenKind.slash (Expr.literal "0") 7 [] 0 [] rfl rfl

/-! ## Claim C7 -/

/-- Claim C7: a unary expression evaluates to exactly its operand's
value, whatever unary operator token the node carries — in particular a
unary-minus node does not negate its operand. -/
theorem unary_returns_operand (ops : NumOps Num) (P : Prel Num) (angle_unit : Unit)
    (fuel : Nat) (st : SymbolTable) (op : TokenKind) (operand : Expr) :
    eval_expr ops P angle_unit (fuel + 1) st (Expr.unary op operand) =
      eval_expr ops P angle_unit fuel st operand := rfl

/-! ## Claim C3 -/

/-- Claim C3: for a unit-annotated expression whose inner expression
evaluates to `x` and whose token kind resolves to a known angle unit `u`:
if `u` equals the context's default angle unit the result is `x`
unchanged; if the value is annotated Degrees while the default is Radians
the result is `x` converted degrees-to-radians; if annotated Radians
while the default is Degrees the result is `x` converted
radians-to-degrees. -/
theorem unit_conversion_semantics (ops : NumOps Num) (P : Prel Num) (angle_unit : Unit)
    (fuel : Nat) (st : SymbolTable) (inner : Expr) (kind : TokenKind)
    (u : Unit) (x : Num) (st1 : SymbolTable)
    (hx : eval_expr ops P angle_unit fuel st inner = .ok x st1)
    (hu : kind.to_unit = Except.ok u) :
    (u = angle_unit →
      eval_expr ops P angle_unit (fuel + 1) st (Expr.unit inner kind) = .ok x st1) ∧
    (u = Unit.degrees → angle_unit = Unit.radians →
      eval_expr ops P angle_unit (fuel + 1) st (Expr.unit inner kind)
        = .ok (ops.toRadians x) st1) ∧
    (u = Unit.radians → angle_unit = Unit.degrees →
      eval_expr ops P angle_unit (fuel + 1) st (Expr.unit inner kind)
        = .ok (ops.toDegrees x) st1) := by
  refine ⟨?_, ?_, ?_⟩
  · intro h1
    subst h1
    rw [eval_expr_unit]
    unfold eval_unit_expr
    simp [hx, hu, compare_enums]
  · intro h1 h2
    subst h1; subst h2
    rw [eval_expr_unit]
    unfold eval_unit_expr
    simp [hx, hu, compare_enums]
  · intro h1 h2
    subst h1; subst h2
    rw [eval_expr_unit]
    unfold eval_unit_expr
    simp [hx, hu, compare_enums]

/-- Witness for `unit_conversion_semantics`: a literal annotated with the
degree suffix under a radian default is converted degrees-to-radians. -/
theorem unit_conversion_semantics_witness :
    eval_expr natOps demoPrel Unit.radians 2 []
      (Expr.unit (Expr.literal "3") TokenKind.deg)
      = Res.ok (natOps.toRadians 3) [] :=
  (unit_conversion_semantics natOps demoPrel Unit.radians 1 []
    (Expr.literal "3") TokenKind.deg Unit.degrees 3 [] rfl rfl).2.1 rfl rfl

/-! ## Claim C9 -/

/-- Claim C9: a variable expression first consults the builtin constant
catalog by exact name, expanding a found constant's textual value as a
fresh literal; otherwise a `VarDecl` entry in the symbol table has its
stored body evaluated; and with no entry, or a `FnDecl` entry under the
plain name, evaluation fails with the undefined-variable error naming the
identifier. -/
theorem var_resolution_order (ops : NumOps Num) (P : Prel Num) (angle_unit : Unit)
    (fuel : Nat) (st : SymbolTable) (identifier : String) :
    (∀ value, P.constants identifier = some value →
      eval_expr ops P angle_unit (fuel + 1) st (Expr.var identifier)
        = eval_expr ops P angle_unit fuel st (Expr.literal value)) ∧
    (P.constants identifier = none → ∀ name e,
      st.get identifier = some (Stmt.varDecl name e) →
      eval_expr ops P angle_unit (fuel + 1) st (Expr.var identifier)
        = eval_expr ops P angle_unit fuel st e) ∧
    (P.constants identifier = none → st.get identifier = none →
      eval_expr ops P angle_unit (fuel + 1) st (Expr.var identifier)
        = .err (undefined_var_msg identifier) st) ∧
    (P.constants identifier = none → ∀ name params body,
      st.get identifier = some (Stmt.fnDecl name params body) →
      eval_expr ops P angle_unit (fuel + 1) st (Expr.var identifier)
        = .err (undefined_var_msg identifier) st) := by
  refine ⟨?_, ?_, ?_, ?_⟩
  · intro value hc
    rw [eval_expr_var]
    unfold eval_var_expr
    simp only [hc]
  · intro hc name e hv
    rw [eval_expr_var]
    unfold eval_var_expr
    simp only [hc, hv]
  · intro hc hv
    rw [eval_expr_var]
    unfold eval_var_expr
    simp only [hc, hv]
  · intro hc name params body hv
    rw [eval_expr_var]
    unfold eval_var_expr
    simp only [hc, hv]

/-- Witness for `var_resolution_order`: the constant `pi` expands to its
textual value, and an unknown identifier fails with the
undefined-variable error. -/
theorem var_resolution_order_witness :
    eval_expr natOps demoPrel Unit.radians 2 [] (Expr.var "pi")
      = eval_expr natOps demoPrel Unit.radians 1 [] (Expr.literal "3") ∧
    eval_expr natOps demoPrel Unit.radians 2 [] (Expr.var "zz")
      = Res.err (undefined_var_msg "zz") [] :=
  ⟨(var_resolution_order natOps demoPrel Unit.radians 1 [] "pi").1 "3" rfl,
   (var_resolution_order natOps demoPrel Unit.radians 1 [] "zz").2.2.1 rfl rfl⟩

/-! ## Claim C4 -/

/-- Claim C4: a call with exactly one argument whose name the unary
builtin table recognizes (at the evaluated argument and the context's
angle unit) returns the builtin's result, and a call with exactly two
arguments recognized by the binary builtin table returns that builtin's
result; the symbol table `st` is universally quantified, so a
user-defined function stored under the same name is never consulted. -/
theorem builtin_precedes_user_fn (ops : NumOps Num) (P : Prel Num) (angle_unit : Unit)
    (fuel : Nat) (st : SymbolTable)
    (idu : String) (a : Expr) (x : Num) (st1 : SymbolTable) (r1 : Num)
    (idb : String) (c d : Expr) (xc : Num) (stc : SymbolTable)
    (yd : Num) (std : SymbolTable) (r2 : Num)
    (ha : eval_expr ops P angle_unit fuel st a = .ok x st1)
    (hu : P.callUnary idu x angle_unit = some r1)
    (hc : eval_expr ops P angle_unit fuel st c = .ok xc stc)
    (hd : eval_expr ops P angle_unit fuel stc d = .ok yd std)
    (hb : P.callBinary idb xc yd angle_unit = some r2) :
    eval_expr ops P angle_unit (fuel + 1) st (Expr.fnCall idu [a]) = .ok r1 st1 ∧
    eval_expr ops P angle_unit (fuel + 1) st (Expr.fnCall idb [c, d]) = .ok r2 std := by
  constructor
  · rw [eval_expr_fnCall]
    unfold eval_fn_call_expr call_prelude
    simp only [ha, hu]
  · rw [eval_expr_fnCall]
    unfold eval_fn_call_expr call_prelude
    simp only [hc, hd, hb]

/-- Witness for `builtin_precedes_user_fn`: `double` and `plus2` resolve
as builtins even though the symbol table stores user functions of the
same names. -/
theorem builtin_precedes_user_fn_witness :
    eval_expr natOps demoPrel Unit.radians 2
      [("double()", Stmt.fnDecl "double" ["x"] (Expr.literal "999")),
       ("plus2()", Stmt.fnDecl "plus2" ["x", "y"] (Expr.literal "999"))]
      (Expr.fnCall "double" [Expr.literal "5"])
      = Res.ok 10
          [("double()", Stmt.fnDecl "double" ["x"] (Expr.literal "999")),
           ("plus2()", Stmt.fnDecl "plus2" ["x", "y"] (Expr.literal "999"))] ∧
    eval_expr natOps demoPrel Unit.radians 2
      [("double()", Stmt.fnDecl "double" ["x"] (Expr.literal "999")),
       ("plus2()", Stmt.fnDecl "plus2" ["x", "y"] (Expr.literal "999"))]
      (Expr.fnCall "plus2" [Expr.literal "5", Expr.literal "6"])
      = Res.ok 11
          [("double()", Stmt.fnDecl "double" ["x"] (Expr.literal "999")),
           ("plus2()", Stmt.fnDecl "plus2" ["x", "y"] (Expr.literal "999"))] :=
  builtin_precedes_user_fn natOps demoPrel Unit.radians 1
    [("double()", Stmt.fnDecl "double" ["x"] (Expr.literal "999")),
     ("plus2()", Stmt.fnDecl "plus2" ["x", "y"] (Expr.literal "999"))]
    "double" (Expr.literal "5") 5 _ 10
    "plus2" (Expr.literal "5") (Expr.literal "6") 5 _ 6 _ 11
    rfl rfl rfl rfl rfl

/-! ## Claim C8 -/

/-- Claim C8: when the prelude phase falls through and the symbol table
holds a `FnDecl` under `identifier ++ "()"` whose parameter count differs
from the argument count, the call fails with the argument-count-mismatch
error naming the function and both counts; the table is returned
unchanged from the lookup state (no parameter is bound) and the body is
never evaluated (it is universally quantified and absent from the
result). -/
theorem fn_arity_mismatch_errors (ops : NumOps Num) (P : Prel Num) (angle_unit : Unit)
    (fuel : Nat) (st : SymbolTable) (identifier : String) (args : List Expr)
    (name : String) (params : List String) (body : Expr) (st1 : SymbolTable)
    (hpre : call_prelude P angle_unit (eval_expr ops P angle_unit fuel)
      st identifier args = .ok none st1)
    (hlook : st1.get (identifier ++ "()") = some (Stmt.fnDecl name params body))
    (hne : params.length ≠ args.length) :
    eval_expr ops P angle_unit (fuel + 1) st (Expr.fnCall identifier args)
      = .err (arg_count_msg params.length identifier args.length) st1 := by
  rw [eval_expr_fnCall]
  unfold eval_fn_call_expr
  simp only [hpre, hlook, if_pos hne]

/-- Witness for `fn_arity_mismatch_errors`: calling a one-parameter user
function with no arguments. -/
theorem fn_arity_mismatch_errors_witness :
    eval_expr natOps demoPrel Unit.radians 2
      [("f()", Stmt.fnDecl "f" ["a"] (Expr.literal "1"))]
      (Expr.fnCall "f" [])
      = Res.err (arg_count_msg 1 "f" 0)
          [("f()", Stmt.fnDecl "f" ["a"] (Expr.literal "1"))] :=
  fn_arity_mismatch_errors natOps demoPrel Unit.radians 1
    [("f()", Stmt.fnDecl "f" ["a"] (Expr.literal "1"))] "f" []
    "f" ["a"] (Expr.literal "1") _ rfl rfl (by decide)

/-! ## Claim C10 -/

/-- Claim C10: with exactly one or two arguments the argument expressions
are evaluated eagerly, left to right, before any name is resolved: a
failing argument's error is the call's result for every identifier
(known or unknown, builtin or user-defined), the second argument being
evaluated in the table state the first produced; with zero or three or
more arguments no argument is evaluated, and an identifier with no
`FnDecl` entry under `identifier ++ "()"` fails with the
undefined-function error on the unchanged table. -/
theorem fn_args_eager_eval (ops : NumOps Num) (P : Prel Num) (angle_unit : Unit)
    (fuel : Nat) (st : SymbolTable) (identifier : String) :
    (∀ a m st1, eval_expr ops P angle_unit fuel st a = .err m st1 →
      eval_expr ops P angle_unit (fuel + 1) st (Expr.fnCall identifier [a])
        = .err m st1) ∧
    (∀ a b m st1, eval_expr ops P angle_unit fuel st a = .err m st1 →
      eval_expr ops P angle_unit (fuel + 1) st (Expr.fnCall identifier [a, b])
        = .err m st1) ∧
    (∀ a b x st1 m st2, eval_expr ops P angle_unit fuel st a = .ok x st1 →
      eval_expr ops P angle_unit fuel st1 b = .err m st2 →
      eval_expr ops P angle_unit (fuel + 1) st (Expr.fnCall identifier [a, b])
        = .err m st2) ∧
    (∀ args : List Expr, args.length ≠ 1 → args.length ≠ 2 →
      (∀ name params body,
        st.get (identifier ++ "()") ≠ some (Stmt.fnDecl name params body)) →
      eval_expr ops P angle_unit (fuel + 1) st (Expr.fnCall identifier args)
        = .err (undefined_fn_msg identifier) st) := by
  refine ⟨?_, ?_, ?_, ?_⟩
  · intro a m st1 ha
    rw [eval_expr_fnCall]
    unfold eval_fn_call_expr call_prelude
    simp only [ha]
  · intro a b m st1 ha
    rw [eval_expr_fnCall]
    unfold eval_fn_call_expr call_prelude
    simp only [ha]
  · intro a b x st1 m st2 ha hb
    rw [eval_expr_fnCall]
    unfold eval_fn_call_expr call_prelude
    simp only [ha, hb]
  · intro args h1 h2 hlook
    have hpre : call_prelude P angle_unit (eval_expr ops P angle_unit fuel)
        st identifier args = .ok none st := by
      match args with
      | [] => rfl
      | [a] => exact absurd rfl h1
      | [a, b] => exact absurd rfl h2
      | a :: b :: c :: rest => rfl
    rw [eval_expr_fnCall]
    unfold eval_fn_call_expr
    cases hg : st.get (identifier ++ "()") with
    | none => simp only [hpre, hg]
    | some s =>
      cases s with
      | varDecl n e => simp only [hpre, hg]
      | fnDecl n ps b => exact absurd hg (hlook n ps b)
      | expr e => simp only [hpre, hg]

/-- Witness for `fn_args_eager_eval`: an unknown function name called
with a failing argument yields the argument's error, while the same name
called with no arguments yields the undefined-function error without
evaluating anything. -/
theorem fn_args_eager_eval_witness :
    eval_expr natOps demoPrel Unit.radians 2 []
      (Expr.fnCall "mystery" [Expr.var "boom"])
      = Res.err (undefined_var_msg "boom") [] ∧
    eval_expr natOps demoPrel Unit.radians 2 [] (Expr.fnCall "mystery" [])
      = Res.err (undefined_fn_msg "mystery") [] :=
  ⟨(fn_args_eager_eval natOps demoPrel Unit.radians 1 [] "mystery").1
      (Expr.var "boom") (undefined_var_msg "boom") [] rfl,
   (fn_args_eager_eval natOps demoPrel Unit.radians 1 [] "mystery").2.2.2
      [] (by decide) (by decide) (fun name params body h => Option.noConfusion h)⟩

/-! ## Claim C5 -/

/-- The pure effect of the argument-binding loop on the symbol table:
each parameter name is inserted, in order, as a `VarDecl` of its
(unevaluated) argument expression. -/
def bind_table : SymbolTable → List String → List Expr → SymbolTable
  | st, [], _ => st
  | st, _ :: _, [] => st
  | st, p :: ps, a :: rest => bind_table (st.insert p (Stmt.varDecl p a)) ps rest

theorem bind_args_eq_bind_table (z : Num) (evalE : SymbolTable → Expr → Res Num)
    (st : SymbolTable) (ps : List String) (args : List Expr) :
    bind_args z evalE st ps args = .ok z (bind_table st ps args) := by
  induction ps generalizing st args with
  | nil => cases args <;> rfl
  | cons p ps ih =>
    cases args with
    | nil => rfl
    | cons a rest =>
      simp only [bind_args, eval_stmt_with, bind_table]
      exact ih (st.insert p (Stmt.varDecl p a)) rest

theorem bind_table_get_not_mem (st : SymbolTable) (ps : List String)
    (args : List Expr) (x : String) (hx : x ∉ ps) :
    (bind_table st ps args).get x = st.get x := by
  induction ps generalizing st args with
  | nil => cases args <;> rfl
  | cons p ps ih =>
    cases args with
    | nil => rfl
    | cons a rest =>
      have hpx : p ≠ x := fun h => hx (h ▸ List.mem_cons_self p ps)
      rw [bind_table, ih _ rest (fun h => hx (List.mem_cons_of_mem p h))]
      simp [SymbolTable.insert, SymbolTable.get, hpx]

theorem bind_table_get_nodup (st : SymbolTable) (ps : List String)
    (args : List Expr) (hnd : ps.Nodup) (hlen : ps.length = args.length)
    (i : Nat) (hi : i < ps.length) :
    (bind_table st ps args).get (ps.get ⟨i, hi⟩) =
      some (Stmt.varDecl (ps.get ⟨i, hi⟩) (args.get ⟨i, hlen ▸ hi⟩)) := by
  induction ps generalizing st args i with
  | nil => exact absurd hi (by simp)
  | cons p ps ih =>
    cases args with
    | nil => simp at hlen
    | cons a rest =>
      cases i with
      | zero =>
        have hp : p ∉ ps := (List.nodup_cons.mp hnd).1
        show (bind_table (st.insert p (Stmt.varDecl p a)) ps rest).get p
          = some (Stmt.varDecl p a)
        rw [bind_table_get_not_mem _ _ _ _ hp]
        simp [SymbolTable.insert, SymbolTable.get]
      | succ j =>
        have hnd2 := (List.nodup_cons.mp hnd).2
        have hlen2 : ps.length = rest.length := by simpa using hlen
        rw [bind_table]
        exact ih _ rest hnd2 hlen2 j (by simpa using hi)

/-- Claim C5: a call that falls through the prelude phase and resolves to
a stored `FnDecl` with matching arity evaluates its body under the table
obtained by inserting, for each (distinct) parameter name, a `VarDecl` of
the corresponding unevaluated argument expression; each parameter's plain
variable key then maps to exactly that `VarDecl` (overwriting whatever
the table held before, since `st` and `st1` are arbitrary); and the
call's final result — value and table alike — is exactly the body
evaluation's result from that bound table, so nothing is restored after
the call returns. -/
theorem user_fn_binds_params (ops : NumOps Num) (P : Prel Num) (angle_unit : Unit)
    (fuel : Nat) (st : SymbolTable) (identifier : String) (args : List Expr)
    (name : String) (params : List String) (body : Expr) (st1 : SymbolTable)
    (hpre : call_prelude P angle_unit (eval_expr ops P angle_unit fuel)
      st identifier args = .ok none st1)
    (hlook : st1.get (identifier ++ "()") = some (Stmt.fnDecl name params body))
    (hlen : params.length = args.length)
    (hnd : params.Nodup) :
    eval_expr ops P angle_unit (fuel + 1) st (Expr.fnCall identifier args)
      = eval_expr ops P angle_unit fuel (bind_table st1 params args) body ∧
    ∀ i (hi : i < params.length),
      (bind_table st1 params args).get (params.get ⟨i, hi⟩) =
        some (Stmt.varDecl (params.get ⟨i, hi⟩) (args.get ⟨i, hlen ▸ hi⟩)) := by
  constructor
  · rw [eval_expr_fnCall]
    unfold eval_fn_call_expr
    simp only [hpre, hlook, hlen, ne_eq, not_true_eq_false, if_false,
      bind_args_eq_bind_table]
  · intro i hi
    exact bind_table_get_nodup st1 params args hnd hlen i hi

/-- Witness for `user_fn_binds_params`: calling `g(a, b, c) := a` with
three literal arguments binds all three parameters as unevaluated
`VarDecl`s and evaluates the body under the bound table. -/
theorem user_fn_binds_params_witness :
    eval_expr natOps demoPrel Unit.radians 2
      [("g()", Stmt.fnDecl "g" ["a", "b", "c"] (Expr.var "a"))]
      (Expr.fnCall "g" [Expr.literal "1", Expr.literal "2", Expr.literal "3"])
      = eval_expr natOps demoPrel Unit.radians 1
          (bind_table [("g()", Stmt.fnDecl "g" ["a", "b", "c"] (Expr.var "a"))]
            ["a", "b", "c"] [Expr.literal "1", Expr.literal "2", Expr.literal "3"])
          (Expr.var "a") ∧
    (bind_table [("g()", Stmt.fnDecl "g" ["a", "b", "c"] (Expr.var "a"))]
        ["a", "b", "c"] [Expr.literal "1", Expr.literal "2", Expr.literal "3"]).get "b"
      = some (Stmt.varDecl "b" (Expr.literal "2")) :=
  ⟨(user_fn_binds_params natOps demoPrel Unit.radians 1
      [("g()", Stmt.fnDecl "g" ["a", "b", "c"] (Expr.var "a"))]
      "g" [Expr.literal "1", Expr.literal "2", Expr.literal "3"]
      "g" ["a", "b", "c"] (Expr.var "a") _ rfl rfl rfl (by decide)).1,
   (user_fn_binds_params natOps demoPrel Unit.radians 1
      [("g()", Stmt.fnDecl "g" ["a", "b", "c"] (Expr.var "a"))]
      "g" [Expr.literal "1", Expr.literal "2", Expr.literal "3"]
      "g" ["a", "b", "c"] (Expr.var "a") _ rfl rfl rfl (by decide)).2 1 (by decide)⟩

/-! ## Claim C2 -/

/-- "No evaluation fails": every statement of the sequence, run in order
from `st`, evaluates to `ok` (no error and no fuel exhaustion). -/
def seq_ok (ops : NumOps Num) (P : Prel Num) (angle_unit : Unit) (fuel : Nat) :
    SymbolTable → List Stmt → Bool
  | _, [] => true
  | st, s :: rest =>
    match eval_stmt ops P angle_unit fuel st s with
    | .ok _ st1 => seq_ok ops P angle_unit fuel st1 rest
    | _ => false

/-- The symbol table state after running a statement sequence in order
(keeping the table of an `err`, as the loop in `interpret` does). -/
def table_after (ops : NumOps Num) (P : Prel Num) (angle_unit : Unit) (fuel : Nat) :
    SymbolTable → List Stmt → SymbolTable
  | st, [] => st
  | st, s :: rest =>
    match eval_stmt ops P angle_unit fuel st s with
    | .ok _ st1 => table_after ops P angle_unit fuel st1 rest
    | .err _ st1 => table_after ops P angle_unit fuel st1 rest
    | .out => st

theorem seq_ok_append (ops : NumOps Num) (P : Prel Num) (angle_unit : Unit)
    (fuel : Nat) (st : SymbolTable) (init rest : List Stmt)
    (h : seq_ok ops P angle_unit fuel st (init ++ rest) = true) :
    seq_ok ops P angle_unit fuel st init = true ∧
    seq_ok ops P angle_unit fuel (table_after ops P angle_unit fuel st init) rest
      = true := by
  induction init generalizing st with
  | nil => exact ⟨rfl, h⟩
  | cons s init ih =>
    rw [List.cons_append, seq_ok] at h
    rw [seq_ok, table_after]
    cases he : eval_stmt ops P angle_unit fuel st s with
    | ok v st1 => rw [he] at h; exact ih st1 h
    | err m st1 => rw [he] at h; exact absurd h (by simp)
    | out => rw [he] at h; exact absurd h (by simp)

theorem interpret_append_last (ops : NumOps Num) (P : Prel Num) (angle_unit : Unit)
    (fuel : Nat) (st : SymbolTable) (init : List Stmt) (last : Stmt)
    (h : seq_ok ops P angle_unit fuel st init = true) :
    interpret ops P angle_unit fuel st (init ++ [last]) =
      interpret ops P angle_unit fuel
        (table_after ops P angle_unit fuel st init) [last] := by
  induction init generalizing st with
  | nil => rfl
  | cons s init ih =>
    rw [seq_ok] at h
    rw [List.cons_append,
      interpret_cons ops P angle_unit fuel st s (init ++ [last]) (by simp),
      table_after]
    cases he : eval_stmt ops P angle_unit fuel st s with
    | ok v st1 => rw [he] at h; exact ih st1 h
    | err m st1 => rw [he] at h; exact absurd h (by simp)
    | out => rw [he] at h; exact absurd h (by simp)

/-- Claim C2: when no statement's evaluation fails, `interpret` returns
`Some v` exactly when the sequence is non-empty and ends in a bare
expression statement — `v` being that expression's value, evaluated in
the table state the earlier statements produced — and returns `None` for
the empty sequence or a sequence ending in a variable or function
declaration. -/
theorem interpret_result_shape (ops : NumOps Num) (P : Prel Num) (angle_unit : Unit)
    (fuel : Nat) (st : SymbolTable) (stmts : List Stmt)
    (h : seq_ok ops P angle_unit fuel st stmts = true) :
    (stmts = [] → interpret ops P angle_unit fuel st stmts = .ok none st) ∧
    (∀ init e, stmts = init ++ [Stmt.expr e] →
      ∃ v st1,
        eval_expr ops P angle_unit fuel
          (table_after ops P angle_unit fuel st init) e = .ok v st1 ∧
        interpret ops P angle_unit fuel st stmts = .ok (some v) st1) ∧
    (∀ init s, stmts = init ++ [s] → (∀ e, s ≠ Stmt.expr e) →
      ∃ st1, interpret ops P angle_unit fuel st stmts = .ok none st1) := by
  refine ⟨fun he => by rw [he]; rfl, ?_, ?_⟩
  · intro init e hst
    subst hst
    obtain ⟨hinit, hlast⟩ := seq_ok_append ops P angle_unit fuel st init [Stmt.expr e] h
    rw [seq_ok] at hlast
    cases he : eval_stmt ops P angle_unit fuel
        (table_after ops P angle_unit fuel st init) (Stmt.expr e) with
    | ok v st1 =>
      refine ⟨v, st1, he, ?_⟩
      rw [interpret_append_last ops P angle_unit fuel st init (Stmt.expr e) hinit]
      simp only [interpret, he]
    | err m st1 => rw [he] at hlast; exact absurd hlast (by simp)
    | out => rw [he] at hlast; exact absurd hlast (by simp)
  · intro init s hst hnotexpr
    subst hst
    obtain ⟨hinit, _⟩ := seq_ok_append ops P angle_unit fuel st init [s] h
    rw [interpret_append_last ops P angle_unit fuel st init s hinit]
    cases s with
    | varDecl n e =>
      exact ⟨_, rfl⟩
    | fnDecl n ps b =>
      exact ⟨_, rfl⟩
    | expr e => exact absurd rfl (hnotexpr e)

/-- Witness for `interpret_result_shape`: `[x := 3, x]` surfaces the
value of the final bare expression, evaluated after the declaration. -/
theorem interpret_result_shape_witness :
    ∃ v st1,
      eval_expr natOps demoPrel Unit.radians 5
        (table_after natOps demoPrel Unit.radians 5 []
          [Stmt.varDecl "x" (Expr.literal "3")]) (Expr.var "x") = .ok v st1 ∧
      interpret natOps demoPrel Unit.radians 5 []
        [Stmt.varDecl "x" (Expr.literal "3"), Stmt.expr (Expr.var "x")]
        = .ok (some v) st1 :=
  (interpret_result_shape natOps demoPrel Unit.radians 5 []
    [Stmt.varDecl "x" (Expr.literal "3"), Stmt.expr (Expr.var "x")] rfl).2.1
    [Stmt.varDecl "x" (Expr.literal "3")] (Expr.var "x") rfl

end Kalker
